import Mathlib

/-!
Shallow embedding of the core logic of the `etsi-mec-qkd` repository
(an ETSI MEC Life-Cycle-Management proxy written in Rust):

* the message data model and the validation engine of `src/messages.rs`;
* the application-list filter engine of `src/messages.rs`
  (`ApplicationList::matching_info`) and `src/applicationlistserver.rs`;
* the application-context store of `src/appcontextserver.rs`.

Modelling conventions:

* Rust `HashMap<String, V>` becomes an association list `List (String × V)`
  whose `insert` replaces any previous binding of the key, `HashSet<String>`
  becomes a `List String` (only membership, emptiness and universally
  quantified facts are ever used, for which duplicates and order are
  irrelevant);
* Rust `Result<T, String>` becomes `Except String T`;
* string lengths (`str::len`, bytes in Rust) become `String.length`, which
  agrees on the ASCII strings exercised here;
* the `f64` coordinate values of `Polygon` are opaque to the core (they are
  only counted, never inspected), so they are modelled by `Int`;
* the random UUIDs generated by `new_context` are passed in as explicit
  arguments (`genContextId`, `genInstanceId`) of the state-transition
  function, playing the role of the random-number generator's oracle.
-/

deriving instance DecidableEq for Except

namespace EtsiMecQkd

/-- `Polygon` of `src/messages.rs`: ordered rings of points, each point a
list of coordinate values (values themselves are opaque to the core). -/
structure Polygon where
  coordinates : List (List (List Int))
deriving DecidableEq, Repr

/-- `CivicAddressElement` of `src/messages.rs`. -/
structure CivicAddressElement where
  caType : Int
  caValue : String
deriving DecidableEq, Repr

/-- `LocationConstraints` of `src/messages.rs`. -/
structure LocationConstraints where
  countryCode : Option String
  civicAddressElement : List CivicAddressElement
  area : Option Polygon
deriving DecidableEq, Repr

/-- `AppCharcs` of `src/messages.rs` (`u32` fields become `Nat`). -/
structure AppCharcs where
  memory : Option Nat
  storage : Option Nat
  latency : Option Nat
  bandwidth : Option Nat
  serviceCont : Option Nat
deriving DecidableEq, Repr

/-- `AppInfoList` of `src/messages.rs`. -/
structure AppInfoList where
  appDId : String
  appName : String
  appProvider : String
  appSoftVersion : String
  appDVersion : String
  appDescription : String
  appLocation : List LocationConstraints
  appCharcs : Option AppCharcs
deriving DecidableEq, Repr

/-- `UserAppInstanceInfo` of `src/messages.rs`. -/
structure UserAppInstanceInfo where
  appInstanceId : Option String
  referenceURI : Option String
  appLocation : Option LocationConstraints
deriving DecidableEq, Repr

/-- `AppInfoContext` of `src/messages.rs`. -/
structure AppInfoContext where
  appDId : Option String
  appName : String
  appProvider : String
  appSoftVersion : Option String
  appDVersion : String
  appDescription : Option String
  userAppInstanceInfo : List UserAppInstanceInfo
  appPackageSource : Option String
deriving DecidableEq, Repr

/-- `VendorSpecificExt` of `src/messages.rs`. -/
structure VendorSpecificExt where
  vendorId : String
deriving DecidableEq, Repr

/-- `VendorSpecificExt::empty` of `src/messages.rs`. -/
def VendorSpecificExt.empty : VendorSpecificExt := { vendorId := "" }

/-- `AppList` of `src/messages.rs`. -/
structure AppList where
  appInfo : AppInfoList
  vendorSpecificExt : Option VendorSpecificExt
deriving DecidableEq, Repr

/-- `ApplicationList` of `src/messages.rs`. -/
structure ApplicationList where
  appList : List AppList
deriving DecidableEq, Repr

/-- `ApplicationListInfo` of `src/messages.rs`: the URI query parameters of
`GET /dev_app/v1/app_list`. -/
structure ApplicationListInfo where
  appName : Option String
  appProvider : Option String
  appSoftVersion : Option String
  serviceCont : Option Nat
  vendorId : Option String
deriving DecidableEq, Repr

/-- `AppContext` of `src/messages.rs`. -/
structure AppContext where
  contextId : Option String
  associateDevAppId : String
  callbackReference : Option String
  appLocationUpdates : Option Bool
  appAutoInstantiation : Option Bool
  appInfo : AppInfoContext
deriving DecidableEq, Repr

/-! ### The validation engine (`src/messages.rs`) -/

/-- `check` of `src/messages.rs`: error if the list of problems is not
empty, with the problems joined by semicolons. -/
def check (problems : List String) : Except String Unit :=
  if problems.isEmpty then .ok () else .error (String.intercalate ";" problems)

/-- `add_problem` of `src/messages.rs`, functionally: the contribution of a
nested element's validation to the parent's problem list. -/
def problemsOf (r : Except String Unit) : List String :=
  match r with
  | .ok _ => []
  | .error e => [e]

/-- `Polygon::validate` of `src/messages.rs`, inner loop over the points of
one ring: error on the first point not made of exactly two values. -/
def validateRing : List (List Int) → Except String Unit
  | [] => .ok ()
  | point :: rest =>
    if point.length ≠ 2 then .error "each point must be identified by two values"
    else validateRing rest

/-- `Polygon::validate` of `src/messages.rs`, outer loop over the rings. -/
def validateRings : List (List (List Int)) → Except String Unit
  | [] => .ok ()
  | ring :: rest =>
    match validateRing ring with
    | .error e => .error e
    | .ok _ => validateRings rest

/-- `Polygon::validate` of `src/messages.rs`. -/
def Polygon.validate (p : Polygon) : Except String Unit :=
  validateRings p.coordinates

/-- `CivicAddressElement::validate` of `src/messages.rs`. -/
def CivicAddressElement.validate (c : CivicAddressElement) : Except String Unit :=
  if c.caValue.isEmpty then .error "Empty caValue in civicAddressElement" else .ok ()

/-- `LocationConstraints::validate` of `src/messages.rs`, loop over the
civic address elements: returns the first failing element's error. -/
def validateCivics : List CivicAddressElement → Except String Unit
  | [] => .ok ()
  | c :: rest =>
    match c.validate with
    | .error e => .error e
    | .ok _ => validateCivics rest

/-- `LocationConstraints::validate` of `src/messages.rs`. -/
def LocationConstraints.validate (l : LocationConstraints) : Except String Unit :=
  match l.area with
  | some polygon =>
    if l.countryCode.isSome ∨ l.civicAddressElement ≠ [] then
      .error "countryCode and civicAddressElement must be empty with area"
    else polygon.validate
  | none =>
    if l.countryCode = none ∨ l.countryCode = some "" then
      .error "Empty countryCode in LocalConstraints"
    else if l.civicAddressElement = [] then
      .error "Empty civicAddressElement in LocalConstraints"
    else validateCivics l.civicAddressElement

/-- `AppCharcs::validate` of `src/messages.rs`. -/
def AppCharcs.validate (a : AppCharcs) : Except String Unit :=
  match a.serviceCont with
  | some 0 => .ok ()
  | some 1 => .ok ()
  | some other => .error ("invalid serviceCont value: " ++ toString other)
  | none => .ok ()

/-- The problem list accumulated by `AppInfoList::validate` of
`src/messages.rs` before the final `check`. -/
def appInfoListProblems (a : AppInfoList) : List String :=
  (if a.appName.length > 32 then ["appName is too long"] else [])
  ++ (if a.appProvider.length > 32 then ["appProvider is too long"] else [])
  ++ (if a.appSoftVersion.length > 32 then ["appSoftVersion is too long"] else [])
  ++ (if a.appDescription.length > 128 then ["appDescription is too long"] else [])
  ++ (a.appLocation.map (fun c => problemsOf c.validate)).flatten
  ++ (match a.appCharcs with
      | some x => problemsOf x.validate
      | none => [])

/-- `AppInfoList::validate` of `src/messages.rs`. -/
def AppInfoList.validate (a : AppInfoList) : Except String Unit :=
  check (appInfoListProblems a)

/-- `UserAppInstanceInfo::validate` of `src/messages.rs`. -/
def UserAppInstanceInfo.validate (u : UserAppInstanceInfo) : Except String Unit :=
  match u.appLocation with
  | some x => x.validate
  | none => .ok ()

/-- The problem list accumulated by `AppInfoContext::validate` of
`src/messages.rs` before the final `check`. -/
def appInfoContextProblems (a : AppInfoContext) : List String :=
  (if a.appName.length > 32 then ["appName is too long"] else [])
  ++ (if a.appProvider.length > 32 then ["appProvider is too long"] else [])
  ++ (match a.appSoftVersion with
      | some x => if x.length > 32 then ["appSoftVersion is too long"] else []
      | none => [])
  ++ (match a.appDescription with
      | some x => if x.length > 128 then ["appDescription is too long"] else []
      | none => [])
  ++ (a.userAppInstanceInfo.map (fun i => problemsOf i.validate)).flatten

/-- `AppInfoContext::validate` of `src/messages.rs`. -/
def AppInfoContext.validate (a : AppInfoContext) : Except String Unit :=
  check (appInfoContextProblems a)

/-- `VendorSpecificExt::validate` of `src/messages.rs`. -/
def VendorSpecificExt.validate (v : VendorSpecificExt) : Except String Unit :=
  if v.vendorId.length > 32 then .error "vendorId is too long" else .ok ()

/-- The problem list accumulated by `AppList::validate` of
`src/messages.rs`. -/
def appListProblems (a : AppList) : List String :=
  problemsOf a.appInfo.validate
  ++ (match a.vendorSpecificExt with
      | some x => problemsOf x.validate
      | none => [])

/-- `AppList::validate` of `src/messages.rs`. -/
def AppList.validate (a : AppList) : Except String Unit :=
  check (appListProblems a)

/-- `ApplicationList::validate` of `src/messages.rs`. -/
def ApplicationList.validate (a : ApplicationList) : Except String Unit :=
  check (a.appList.map (fun x => problemsOf x.validate)).flatten

/-- The problem list accumulated by `AppContext::validate` of
`src/messages.rs` before the final `check`. -/
def appContextProblems (a : AppContext) : List String :=
  (match a.contextId with
   | some x => if x.length > 32 then ["contextId is too long"] else []
   | none => [])
  ++ (if a.associateDevAppId.length > 32 then ["associateDevAppId is too long"] else [])
  ++ problemsOf a.appInfo.validate

/-- `AppContext::validate` of `src/messages.rs`. -/
def AppContext.validate (a : AppContext) : Except String Unit :=
  check (appContextProblems a)

/-- `AppContext::valid_request` of `src/messages.rs`: the second validation
pass layered over `validate` for context-creation requests. -/
def AppContext.valid_request (a : AppContext) : Except String Unit :=
  match a.validate with
  | .error x => .error x
  | .ok _ =>
    if a.contextId.isSome then
      .error "contextId cannot be present in a request AppContext"
    else if a.appInfo.userAppInstanceInfo ≠ [] then
      .error "userAppInstanceInfo cannot be present in a request AppContext"
    else .ok ()

/-! ### The application-list filter engine
(`src/messages.rs` and `src/applicationlistserver.rs`) -/

/-- `ApplicationListInfo::to_hash_set` of `src/messages.rs`: the
comma-separated values of an optional filter field (a `HashSet<String>` in
Rust; order and duplicates are never relevant). -/
def to_hash_set (v : Option String) : List String :=
  match v with
  | some x => x.splitOn ","
  | none => []

/-- `ApplicationListInfo::app_names` of `src/messages.rs`. -/
def ApplicationListInfo.app_names (i : ApplicationListInfo) : List String :=
  to_hash_set i.appName

/-- `ApplicationListInfo::app_providers` of `src/messages.rs`. -/
def ApplicationListInfo.app_providers (i : ApplicationListInfo) : List String :=
  to_hash_set i.appProvider

/-- `ApplicationListInfo::app_soft_versions` of `src/messages.rs`. -/
def ApplicationListInfo.app_soft_versions (i : ApplicationListInfo) : List String :=
  to_hash_set i.appSoftVersion

/-- `ApplicationListInfo::vendor_ids` of `src/messages.rs`. -/
def ApplicationListInfo.vendor_ids (i : ApplicationListInfo) : List String :=
  to_hash_set i.vendorId

/-- `service_cont_valid` of `src/messages.rs`. -/
def service_cont_valid (s : Option Nat) : Bool :=
  match s with
  | some 0 => true
  | some 1 => true
  | some _ => false
  | none => true

/-- `ApplicationListInfo::validate` of `src/messages.rs`: the 32-character
ceiling on every comma-separated value and the `serviceCont` enumeration. -/
def ApplicationListInfo.validate (i : ApplicationListInfo) : Except String Unit :=
  let valid := i.app_names.all (fun x => x.length ≤ 32)
    && i.app_providers.all (fun x => x.length ≤ 32)
    && i.app_soft_versions.all (fun x => x.length ≤ 32)
    && service_cont_valid i.serviceCont
    && i.vendor_ids.all (fun x => x.length ≤ 32)
  if valid then .ok () else .error "invalid query"

/-- The per-entry predicate of `ApplicationList::matching_info` of
`src/messages.rs`. -/
def matchesInfo (info : ApplicationListInfo) (x : AppList) : Bool :=
  (info.app_names.isEmpty || info.app_names.contains x.appInfo.appName)
  && (info.app_providers.isEmpty || info.app_providers.contains x.appInfo.appProvider)
  && (info.app_soft_versions.isEmpty
      || info.app_soft_versions.contains x.appInfo.appSoftVersion)
  && (match info.serviceCont with
      | some _ =>
        match x.appInfo.appCharcs with
        | some app_charcs => info.serviceCont == app_charcs.serviceCont
        | none => false
      | none => true)
  && (info.vendor_ids.isEmpty
      || info.vendor_ids.contains (x.vendorSpecificExt.getD VendorSpecificExt.empty).vendorId)

/-- `ApplicationList::matching_info` of `src/messages.rs`: keep the catalog
entries that satisfy every specified criterion. -/
def ApplicationList.matching_info (l : ApplicationList) (info : ApplicationListInfo) :
    List AppList :=
  l.appList.filter (matchesInfo info)

/-- `StaticApplicationListServer` of `src/applicationlistserver.rs`: an
immutable catalog plus the load error possibly recorded at construction. -/
structure StaticApplicationListServer where
  app_list : Option ApplicationList
  last_err : Option String
deriving DecidableEq, Repr

/-- `StaticApplicationListServer::application_list` of
`src/applicationlistserver.rs`. -/
def StaticApplicationListServer.application_list (s : StaticApplicationListServer)
    (info : ApplicationListInfo) : Except String ApplicationList :=
  match s.last_err with
  | some err => .error err
  | none =>
    match s.app_list with
    | some x => .ok { appList := x.matching_info info }
    | none => .ok { appList := [] }

/-- The HTTP outcome of the `app_list` handler of `src/bin/lcmp.rs`. -/
inductive HttpOutcome where
  | badRequest (reason : String)
  | okBody (body : ApplicationList)
  | internalError (reason : String)
deriving DecidableEq, Repr

/-- The `app_list` handler of `src/bin/lcmp.rs`: validate the query
parameters first, and only when they are valid dispatch the query to the
application-list server. -/
def app_list_handler (s : StaticApplicationListServer) (info : ApplicationListInfo) :
    HttpOutcome :=
  match info.validate with
  | .error err => .badRequest err
  | .ok _ =>
    match s.application_list info with
    | .ok x => .okBody x
    | .error err => .internalError err

/-! ### The application-context store (`src/appcontextserver.rs`) -/

/-- `HashMap::get`: the value bound to a key in an association list. -/
def mapGet {α : Type} (m : List (String × α)) (k : String) : Option α :=
  (m.find? (fun p => p.1 == k)).map (fun p => p.2)

/-- `HashMap::insert`: bind a key to a value, replacing any previous
binding of the same key. -/
def mapInsert {α : Type} (m : List (String × α)) (k : String) (v : α) :
    List (String × α) :=
  (k, v) :: m.filter (fun p => p.1 != k)

/-- `HashMap::remove`: drop the binding of a key. -/
def mapRemove {α : Type} (m : List (String × α)) (k : String) : List (String × α) :=
  m.filter (fun p => p.1 != k)

/-- `SimpleAppContextServer` of `src/appcontextserver.rs`. -/
structure SimpleAppContextServer where
  max_contexts : Nat
  reference_uri_default : Option String
  reference_uri_by_appdid : List (String × String)
  app_contexts : List (String × AppContext)

/-- `SimpleAppContextServer::default_empty` of `src/appcontextserver.rs`. -/
def SimpleAppContextServer.default_empty (max_contexts : Nat) (reference_uri : String) :
    SimpleAppContextServer :=
  { max_contexts
    reference_uri_default := some reference_uri
    reference_uri_by_appdid := []
    app_contexts := [] }

/-- `SimpleAppContextServer::appdid_empty` of `src/appcontextserver.rs`. -/
def SimpleAppContextServer.appdid_empty (max_contexts : Nat)
    (reference_uri_by_appdid : List (String × String)) : SimpleAppContextServer :=
  { max_contexts
    reference_uri_default := none
    reference_uri_by_appdid
    app_contexts := [] }

/-- The reference-URI resolution step of
`SimpleAppContextServer::new_context` of `src/appcontextserver.rs`: the
per-appDId table entry if the request names a known appDId, otherwise the
default reference URI if one is configured. -/
def SimpleAppContextServer.find_reference_uri (s : SimpleAppContextServer)
    (ctx : AppContext) : Option String :=
  match ctx.appInfo.appDId with
  | some appdid =>
    match mapGet s.reference_uri_by_appdid appdid with
    | some uri => some uri
    | none => s.reference_uri_default
  | none => s.reference_uri_default

/-- `UserAppInstanceInfo::from_reference_uri` of `src/messages.rs`, with
the generated UUID passed in explicitly. -/
def UserAppInstanceInfo.from_reference_uri (genInstanceId reference_uri : String) :
    UserAppInstanceInfo :=
  { appInstanceId := some genInstanceId
    referenceURI := some reference_uri
    appLocation := none }

/-- `SimpleAppContextServer::new_context` of `src/appcontextserver.rs`.
The two freshly generated UUIDs are explicit arguments; the result carries
the Rust return value, the new server state, and the (possibly mutated
in place) request argument. -/
def SimpleAppContextServer.new_context (s : SimpleAppContextServer)
    (genContextId genInstanceId : String) (app_context : AppContext) :
    Except String Unit × SimpleAppContextServer × AppContext :=
  if s.app_contexts.length == s.max_contexts then
    (.error ("Maximum number of active contexts reached " ++ toString s.max_contexts),
      s, app_context)
  else
    match app_context.valid_request with
    | .error x => (.error x, s, app_context)
    | .ok _ =>
      match s.find_reference_uri app_context with
      | none =>
        (.error ("It was not possible to find a matching reference URI for AppDId: "
            ++ app_context.appInfo.appDId.getD "unspecified"), s, app_context)
      | some uri =>
        let ctx' : AppContext :=
          { app_context with
            contextId := some genContextId
            appInfo :=
              { app_context.appInfo with
                userAppInstanceInfo := app_context.appInfo.userAppInstanceInfo
                  ++ [UserAppInstanceInfo.from_reference_uri genInstanceId uri] } }
        (.ok (),
          { s with app_contexts := mapInsert s.app_contexts genContextId ctx' },
          ctx')

/-- `SimpleAppContextServer::del_context` of `src/appcontextserver.rs`. -/
def SimpleAppContextServer.del_context (s : SimpleAppContextServer)
    (context_id : String) : Except String Unit × SimpleAppContextServer :=
  match mapGet s.app_contexts context_id with
  | some _ => (.ok (), { s with app_contexts := mapRemove s.app_contexts context_id })
  | none => (.error ("context ID not found: " ++ context_id), s)

/-- `SimpleAppContextServer::get_context` of `src/appcontextserver.rs`. -/
def SimpleAppContextServer.get_context (s : SimpleAppContextServer)
    (context_id : String) : Except String AppContext :=
  match mapGet s.app_contexts context_id with
  | some x => .ok x
  | none => .error ("context ID not found: " ++ context_id)

/-- Modelled from the spec: `AppContext::identical_except_callback_reference`
is called by `SimpleAppContextServer::update_context` but its definition is
not among the provided sources. The spec says: "Compute structural equality
between the stored context and the request ignoring only the
callbackReference field (every other field, including nested appInfo and
its userAppInstanceInfo list, must match exactly)". -/
def AppContext.identical_except_callback_reference (a b : AppContext) : Bool :=
  a.contextId == b.contextId
  && a.associateDevAppId == b.associateDevAppId
  && a.appLocationUpdates == b.appLocationUpdates
  && a.appAutoInstantiation == b.appAutoInstantiation
  && a.appInfo == b.appInfo

/-- The in-place mutation `x.callbackReference = ...` performed by
`update_context` on the entry returned by `HashMap::get_mut`: rewrite the
callbackReference of the (first) entry bound to the key. -/
def setCallback : List (String × AppContext) → String → Option String →
    List (String × AppContext)
  | [], _, _ => []
  | p :: rest, k, cb =>
    if p.1 = k then (p.1, { p.2 with callbackReference := cb }) :: rest
    else p :: setCallback rest k cb

/-- `SimpleAppContextServer::update_context` of `src/appcontextserver.rs`. -/
def SimpleAppContextServer.update_context (s : SimpleAppContextServer)
    (app_context : AppContext) : Except String Unit × SimpleAppContextServer :=
  match app_context.contextId with
  | some context_id =>
    match mapGet s.app_contexts context_id with
    | some x =>
      if x.identical_except_callback_reference app_context then
        (.ok (),
          { s with app_contexts :=
              setCallback s.app_contexts context_id app_context.callbackReference })
      else
        (.error "AppContext in the request does not match that in the server", s)
    | none => (.error ("context ID not found: " ++ context_id), s)
  | none => (.error "context ID not specified in the request", s)

/-- `SimpleAppContextServer::list_contexts` of `src/appcontextserver.rs`. -/
def SimpleAppContextServer.list_contexts (s : SimpleAppContextServer) :
    Except String (List String) :=
  .ok (s.app_contexts.map (fun p => p.1))

/-- `SimpleAppContextServer::status` of `src/appcontextserver.rs`. -/
def SimpleAppContextServer.status (_s : SimpleAppContextServer) : Except String Unit :=
  .ok ()

/-- One lifecycle operation on the context store, with the UUIDs a
`new_context` call would generate carried as oracle data. -/
inductive StoreOp where
  | newCtx (genContextId genInstanceId : String) (ctx : AppContext)
  | delCtx (context_id : String)
  | getCtx (context_id : String)
  | updateCtx (ctx : AppContext)
  | listCtxs
  | statusOp
deriving Repr

/-- The state reached after one lifecycle operation (`get_context`,
`list_contexts` and `status` never change the state). -/
def stepOp (s : SimpleAppContextServer) : StoreOp → SimpleAppContextServer
  | .newCtx g1 g2 ctx => (s.new_context g1 g2 ctx).2.1
  | .delCtx cid => (s.del_context cid).2
  | .getCtx _ => s
  | .updateCtx ctx => (s.update_context ctx).2
  | .listCtxs => s
  | .statusOp => s

/-- The state reached after a sequence of lifecycle operations. -/
def runOps (s : SimpleAppContextServer) (ops : List StoreOp) : SimpleAppContextServer :=
  ops.foldl stepOp s

/-! ### Concrete fixtures used by witnesses and counterexamples -/

/-- A structurally valid creation request (no contextId, no
userAppInstanceInfo), mirroring `AppContext::request_from_name_provider`
with a fixed associateDevAppId. -/
def reqA : AppContext :=
  { contextId := none
    associateDevAppId := "dev"
    callbackReference := none
    appLocationUpdates := none
    appAutoInstantiation := none
    appInfo :=
      { appDId := none
        appName := "my_app_name"
        appProvider := "my_app_provider"
        appSoftVersion := none
        appDVersion := ""
        appDescription := none
        userAppInstanceInfo := []
        appPackageSource := none } }

/-- A structurally invalid creation request: it already carries a
contextId. -/
def reqInvalid : AppContext := { reqA with contextId := some "already-set" }

/-- A store at capacity: bound 1 with one active context. -/
def storeFull : SimpleAppContextServer :=
  { max_contexts := 1
    reference_uri_default := some "referenceURI"
    reference_uri_by_appdid := []
    app_contexts := [("cid0", reqA)] }

/-- An empty single-URI store with bound 2. -/
def store2 : SimpleAppContextServer := SimpleAppContextServer.default_empty 2 "referenceURI"

/-- A catalog entry with no AppCharacteristics. -/
def entry1 : AppList :=
  { appInfo :=
      { appDId := "d1", appName := "A", appProvider := "P1", appSoftVersion := "1.0"
        appDVersion := "v1", appDescription := "", appLocation := [], appCharcs := none }
    vendorSpecificExt := none }

/-- A one-entry catalog whose entry has no AppCharacteristics. -/
def cat1 : ApplicationList := { appList := [entry1] }

/-- A filter that requests serviceContinuity "not required" and leaves
every other field absent. -/
def infoSC0 : ApplicationListInfo :=
  { appName := none, appProvider := none, appSoftVersion := none
    serviceCont := some 0, vendorId := none }

/-- A LocationConstraints with no area, no countryCode and no civic
address elements: it violates two rules at once. -/
def lc0 : LocationConstraints :=
  { countryCode := none, civicAddressElement := [], area := none }

/-! ### Helper lemmas on the association-list store -/

theorem mapGet_cons {α : Type} (p : String × α) (m : List (String × α)) (k : String) :
    mapGet (p :: m) k = if p.1 = k then some p.2 else mapGet m k := by
  by_cases h : p.1 = k
  · simp [mapGet, List.find?_cons, h]
  · simp [mapGet, List.find?_cons, h]

theorem filter_eq_self_of_mapGet_none {α : Type} (m : List (String × α)) (k : String)
    (h : mapGet m k = none) : m.filter (fun p => p.1 != k) = m := by
  induction m with
  | nil => rfl
  | cons p rest ih =>
    rw [mapGet_cons] at h
    by_cases hp : p.1 = k
    · simp [hp] at h
    · rw [if_neg hp] at h
      simp [List.filter_cons, bne_iff_ne, hp, ih h]

theorem setCallback_length (m : List (String × AppContext)) (k : String)
    (cb : Option String) : (setCallback m k cb).length = m.length := by
  induction m with
  | nil => rfl
  | cons p rest ih =>
    unfold setCallback
    by_cases hp : p.1 = k
    · simp [hp]
    · simp [hp, ih]

theorem mapGet_setCallback_self (m : List (String × AppContext)) (k : String)
    (cb : Option String) :
    mapGet (setCallback m k cb) k
      = (mapGet m k).map (fun c => { c with callbackReference := cb }) := by
  induction m with
  | nil => rfl
  | cons p rest ih =>
    unfold setCallback
    by_cases hp : p.1 = k
    · rw [if_pos hp, mapGet_cons, mapGet_cons, if_pos hp, if_pos hp]
      rfl
    · rw [if_neg hp, mapGet_cons, mapGet_cons, if_neg hp, if_neg hp, ih]

theorem mapGet_setCallback_ne (m : List (String × AppContext)) (k k' : String)
    (cb : Option String) (h : k' ≠ k) :
    mapGet (setCallback m k cb) k' = mapGet m k' := by
  induction m with
  | nil => rfl
  | cons p rest ih =>
    unfold setCallback
    by_cases hp : p.1 = k
    · have hne : ¬ p.1 = k' := fun hk => h (hk ▸ hp)
      rw [if_pos hp, mapGet_cons, mapGet_cons, if_neg hne, if_neg hne]
    · rw [if_neg hp, mapGet_cons, mapGet_cons, ih]

/-- A request accepted by `valid_request` has no contextId and no
userAppInstanceInfo. -/
theorem valid_request_shape (a : AppContext) (h : a.valid_request = .ok ()) :
    a.contextId = none ∧ a.appInfo.userAppInstanceInfo = [] := by
  unfold AppContext.valid_request at h
  cases hv : a.validate with
  | error e => rw [hv] at h; exact absurd h (by simp)
  | ok u =>
    rw [hv] at h
    by_cases h1 : a.contextId.isSome
    · rw [if_pos h1] at h
      exact absurd h (by simp)
    · rw [if_neg h1] at h
      by_cases h2 : a.appInfo.userAppInstanceInfo ≠ []
      · rw [if_pos h2] at h
        exact absurd h (by simp)
      · exact ⟨Option.not_isSome_iff_eq_none.mp h1, not_ne_iff.mp h2⟩

/-- The spec-modelled equality-except-callbackReference holds exactly when
overwriting the first context's callbackReference with the second's yields
the second context. -/
theorem identical_except_callback_reference_iff (a b : AppContext) :
    a.identical_except_callback_reference b = true
      ↔ { a with callbackReference := b.callbackReference } = b := by
  cases a; cases b
  simp only [AppContext.identical_except_callback_reference, Bool.and_eq_true,
    beq_iff_eq, AppContext.mk.injEq]
  tauto

/-! ### The claims -/

/-- C1: for every store whose active-context count equals its bound
`max_contexts`, `new_context` fails with the capacity error for every
request (even a structurally invalid one, since the capacity check
precedes validation), and afterwards the store is unchanged: it still
contains exactly `max_contexts` entries. -/
theorem newContext_capacity_c1 (s : SimpleAppContextServer) (g1 g2 : String)
    (ctx : AppContext) (h : s.app_contexts.length = s.max_contexts) :
    (s.new_context g1 g2 ctx).1
        = .error ("Maximum number of active contexts reached " ++ toString s.max_contexts)
      ∧ (s.new_context g1 g2 ctx).2.1 = s
      ∧ (s.new_context g1 g2 ctx).2.1.app_contexts.length = s.max_contexts := by
  refine ⟨?_, ?_, ?_⟩ <;> simp [SimpleAppContextServer.new_context, h]

/-- C1 witness: a store at capacity (bound 1, one active context) rejects
even a structurally invalid request and keeps exactly one entry. -/
theorem newContext_capacity_c1_witness :
    storeFull.app_contexts.length = storeFull.max_contexts
      ∧ (storeFull.new_context "g1" "g2" reqInvalid).1
          = .error "Maximum number of active contexts reached 1"
      ∧ reqInvalid.valid_request ≠ .ok ()
      ∧ (storeFull.new_context "g1" "g2" reqInvalid).2.1.app_contexts.length = 1 := by
  have h := newContext_capacity_c1 storeFull "g1" "g2" reqInvalid (by rfl)
  exact ⟨rfl, h.1.trans (by rfl), by decide, h.2.2.trans (by rfl)⟩

/-- C10: whenever `new_context` fails — capacity reached, invalid request,
or no reference URI resolvable — the caller's AppContext argument is
returned completely unmodified (no contextId assigned, no
UserAppInstanceInfo appended) and the store is unchanged. -/
theorem newContext_failure_frame_c10 (s : SimpleAppContextServer) (g1 g2 : String)
    (ctx : AppContext) (e : String)
    (h : (s.new_context g1 g2 ctx).1 = .error e) :
    (s.new_context g1 g2 ctx).2.2 = ctx ∧ (s.new_context g1 g2 ctx).2.1 = s := by
  by_cases hfull : (s.app_contexts.length == s.max_contexts) = true
  · constructor <;> simp [SimpleAppContextServer.new_context, hfull]
  · cases hv : ctx.valid_request with
    | error x =>
      constructor <;> simp [SimpleAppContextServer.new_context, hfull, hv]
    | ok u =>
      cases hu : s.find_reference_uri ctx with
      | none =>
        constructor <;> simp [SimpleAppContextServer.new_context, hfull, hv, hu]
      | some uri =>
        exfalso
        simp [SimpleAppContextServer.new_context, hfull, hv, hu] at h

/-- C10 witness: a single-URI store at bound 0 rejects a valid request and
hands back the argument untouched. -/
theorem newContext_failure_frame_c10_witness :
    ((SimpleAppContextServer.default_empty 0 "referenceURI").new_context
        "g1" "g2" reqA).1
      = .error "Maximum number of active contexts reached 0"
    ∧ ((SimpleAppContextServer.default_empty 0 "referenceURI").new_context
        "g1" "g2" reqA).2.2 = reqA := by
  refine ⟨by rfl, ?_⟩
  exact (newContext_failure_frame_c10 (SimpleAppContextServer.default_empty 0 "referenceURI")
    "g1" "g2" reqA "Maximum number of active contexts reached 0" (by rfl)).1

/-- C3: on a non-full store, a valid creation request for which a
reference URI resolves succeeds; the request is updated in place with the
fresh contextId and exactly one new UserAppInstanceInfo carrying the fresh
appInstanceId and the resolved referenceURI with appLocation unset, and a
copy of the fully-populated request is inserted into the store keyed by
the new contextId (which, being fresh, grows the store by one entry). -/
theorem newContext_success_c3 (s : SimpleAppContextServer) (g1 g2 : String)
    (ctx : AppContext) (uri : String)
    (hfull : s.app_contexts.length ≠ s.max_contexts)
    (hval : ctx.valid_request = .ok ())
    (huri : s.find_reference_uri ctx = some uri)
    (hfresh : mapGet s.app_contexts g1 = none) :
    (s.new_context g1 g2 ctx).1 = .ok ()
    ∧ (s.new_context g1 g2 ctx).2.2 =
        { ctx with
          contextId := some g1
          appInfo := { ctx.appInfo with
            userAppInstanceInfo :=
              [{ appInstanceId := some g2, referenceURI := some uri, appLocation := none }] } }
    ∧ (s.new_context g1 g2 ctx).2.1.app_contexts
        = (g1, (s.new_context g1 g2 ctx).2.2) :: s.app_contexts
    ∧ mapGet (s.new_context g1 g2 ctx).2.1.app_contexts g1
        = some (s.new_context g1 g2 ctx).2.2
    ∧ (s.new_context g1 g2 ctx).2.1.app_contexts.length = s.app_contexts.length + 1
    ∧ (s.new_context g1 g2 ctx).2.1.max_contexts = s.max_contexts := by
  have hempty := (valid_request_shape ctx hval).2
  have hfull' : ¬ (s.app_contexts.length == s.max_contexts) = true := by
    simpa using hfull
  refine ⟨?_, ?_, ?_, ?_, ?_, ?_⟩ <;>
    simp [SimpleAppContextServer.new_context, hfull', hval, huri, mapInsert,
      filter_eq_self_of_mapGet_none _ _ hfresh, hempty,
      UserAppInstanceInfo.from_reference_uri, mapGet_cons]

/-- C3 witness: on an empty single-URI store with bound 2, a valid request
is accepted, receives contextId "cid1" and one UserAppInstanceInfo with
appInstanceId "iid1" and the default reference URI. -/
theorem newContext_success_c3_witness :
    store2.app_contexts.length ≠ store2.max_contexts
    ∧ reqA.valid_request = .ok ()
    ∧ store2.find_reference_uri reqA = some "referenceURI"
    ∧ mapGet store2.app_contexts "cid1" = none
    ∧ (store2.new_context "cid1" "iid1" reqA).1 = .ok ()
    ∧ (store2.new_context "cid1" "iid1" reqA).2.2.contextId = some "cid1"
    ∧ (store2.new_context "cid1" "iid1" reqA).2.2.appInfo.userAppInstanceInfo
        = [{ appInstanceId := some "iid1", referenceURI := some "referenceURI"
             appLocation := none }]
    ∧ (store2.new_context "cid1" "iid1" reqA).2.1.app_contexts.length = 1 := by
  have h := newContext_success_c3 store2 "cid1" "iid1" reqA "referenceURI"
    (by decide) (by decide) (by rfl) (by rfl)
  refine ⟨by decide, by decide, rfl, rfl, h.1, ?_, ?_, h.2.2.2.2.1.trans (by rfl)⟩
  · rw [h.2.1]
  · rw [h.2.1]

/-! ### Step lemmas for the capacity invariant -/

theorem stepOp_max_eq (s : SimpleAppContextServer) (op : StoreOp) :
    (stepOp s op).max_contexts = s.max_contexts := by
  cases op with
  | newCtx g1 g2 ctx =>
    by_cases hfull : (s.app_contexts.length == s.max_contexts) = true
    · simp [stepOp, SimpleAppContextServer.new_context, hfull]
    · cases hv : ctx.valid_request with
      | error x => simp [stepOp, SimpleAppContextServer.new_context, hfull, hv]
      | ok u =>
        cases hu : s.find_reference_uri ctx with
        | none => simp [stepOp, SimpleAppContextServer.new_context, hfull, hv, hu]
        | some uri => simp [stepOp, SimpleAppContextServer.new_context, hfull, hv, hu]
  | delCtx cid =>
    cases hg : mapGet s.app_contexts cid with
    | some x => simp [stepOp, SimpleAppContextServer.del_context, hg]
    | none => simp [stepOp, SimpleAppContextServer.del_context, hg]
  | updateCtx ctx =>
    cases hc : ctx.contextId with
    | none => simp [stepOp, SimpleAppContextServer.update_context, hc]
    | some cid =>
      cases hg : mapGet s.app_contexts cid with
      | none => simp [stepOp, SimpleAppContextServer.update_context, hc, hg]
      | some x =>
        by_cases hid : x.identical_except_callback_reference ctx = true
        · simp [stepOp, SimpleAppContextServer.update_context, hc, hg, hid]
        · simp [stepOp, SimpleAppContextServer.update_context, hc, hg, hid]
  | getCtx cid => rfl
  | listCtxs => rfl
  | statusOp => rfl

theorem stepOp_length_le (s : SimpleAppContextServer) (op : StoreOp)
    (h : s.app_contexts.length ≤ s.max_contexts) :
    (stepOp s op).app_contexts.length ≤ s.max_contexts := by
  cases op with
  | newCtx g1 g2 ctx =>
    by_cases hfull : (s.app_contexts.length == s.max_contexts) = true
    · simpa [stepOp, SimpleAppContextServer.new_context, hfull] using h
    · have hlt : s.app_contexts.length < s.max_contexts :=
        lt_of_le_of_ne h (by simpa using hfull)
      cases hv : ctx.valid_request with
      | error x => simpa [stepOp, SimpleAppContextServer.new_context, hfull, hv] using h
      | ok u =>
        cases hu : s.find_reference_uri ctx with
        | none => simpa [stepOp, SimpleAppContextServer.new_context, hfull, hv, hu] using h
        | some uri =>
          have hs : (stepOp s (StoreOp.newCtx g1 g2 ctx)).app_contexts.length
              ≤ s.app_contexts.length + 1 := by
            simp only [stepOp, SimpleAppContextServer.new_context, hfull, hv, hu,
              if_neg hfull, mapInsert, List.length_cons]
            exact Nat.add_le_add_right (List.length_filter_le _ _) 1
          exact le_trans hs hlt
  | delCtx cid =>
    cases hg : mapGet s.app_contexts cid with
    | some x =>
      have : (mapRemove s.app_contexts cid).length ≤ s.app_contexts.length :=
        List.length_filter_le _ _
      simpa [stepOp, SimpleAppContextServer.del_context, hg] using le_trans this h
    | none => simpa [stepOp, SimpleAppContextServer.del_context, hg] using h
  | updateCtx ctx =>
    cases hc : ctx.contextId with
    | none => simpa [stepOp, SimpleAppContextServer.update_context, hc] using h
    | some cid =>
      cases hg : mapGet s.app_contexts cid with
      | none => simpa [stepOp, SimpleAppContextServer.update_context, hc, hg] using h
      | some x =>
        by_cases hid : x.identical_except_callback_reference ctx = true
        · simpa [stepOp, SimpleAppContextServer.update_context, hc, hg, hid,
            setCallback_length] using h
        · simpa [stepOp, SimpleAppContextServer.update_context, hc, hg, hid] using h
  | getCtx cid => simpa [stepOp] using h
  | listCtxs => simpa [stepOp] using h
  | statusOp => simpa [stepOp] using h

/-- C9: starting from an empty store with bound `max_contexts`, every
sequence of lifecycle operations (new/get/update/delete/list/status)
keeps the number of active contexts at most `max_contexts`. -/
theorem store_capacity_invariant_c9 (s0 : SimpleAppContextServer)
    (hstart : s0.app_contexts = []) (ops : List StoreOp) :
    (runOps s0 ops).app_contexts.length ≤ s0.max_contexts := by
  suffices h : ∀ s : SimpleAppContextServer, s.app_contexts.length ≤ s.max_contexts →
      (runOps s ops).app_contexts.length ≤ s.max_contexts by
    exact h s0 (by simp [hstart])
  induction ops with
  | nil => intro s hs; simpa [runOps] using hs
  | cons op rest ih =>
    intro s hs
    have h1 := stepOp_length_le s op hs
    have h2 := stepOp_max_eq s op
    have h3 := ih (stepOp s op) (by rw [h2]; exact h1)
    have h4 : runOps s (op :: rest) = runOps (stepOp s op) rest := by
      simp [runOps]
    rw [h4]
    exact le_trans h3 (le_of_eq h2)

/-- C9 witness: from the empty bound-2 store, three creations and one
deletion never push the count above 2. -/
theorem store_capacity_invariant_c9_witness :
    (runOps store2
      [StoreOp.newCtx "c1" "i1" reqA, StoreOp.newCtx "c2" "i2" reqA,
       StoreOp.newCtx "c3" "i3" reqA, StoreOp.delCtx "c1"]).app_contexts.length
      ≤ store2.max_contexts :=
  store_capacity_invariant_c9 store2 rfl
    [StoreOp.newCtx "c1" "i1" reqA, StoreOp.newCtx "c2" "i2" reqA,
     StoreOp.newCtx "c3" "i3" reqA, StoreOp.delCtx "c1"]

/-- C2: `update_context` succeeds exactly when the request carries a
contextId, a context with that id is stored, and the request equals the
stored context in every field except callbackReference (equivalently:
overwriting the stored callbackReference with the request's yields the
request); on success only the stored entry's callbackReference changes
(every other key's binding is untouched), and on any failure — missing
id, unknown id, or mismatch — the stored contexts are unchanged. -/
theorem updateContext_spec_c2 (s : SimpleAppContextServer) (ctx : AppContext) :
    ((s.update_context ctx).1 = .ok ()
      ↔ ∃ cid stored, ctx.contextId = some cid
          ∧ mapGet s.app_contexts cid = some stored
          ∧ { stored with callbackReference := ctx.callbackReference } = ctx)
    ∧ (∀ cid, ctx.contextId = some cid → (s.update_context ctx).1 = .ok () →
        mapGet (s.update_context ctx).2.app_contexts cid
            = (mapGet s.app_contexts cid).map
                (fun c => { c with callbackReference := ctx.callbackReference })
          ∧ ∀ k, k ≠ cid →
              mapGet (s.update_context ctx).2.app_contexts k = mapGet s.app_contexts k)
    ∧ ((s.update_context ctx).1 ≠ .ok () → (s.update_context ctx).2 = s) := by
  cases hc : ctx.contextId with
  | none =>
    refine ⟨?_, ?_, ?_⟩
    · refine iff_of_false (by simp [SimpleAppContextServer.update_context, hc]) ?_
      rintro ⟨cid, stored, hcid, -, -⟩
      simp at hcid
    · intro cid hcid
      simp at hcid
    · intro _
      simp [SimpleAppContextServer.update_context, hc]
  | some cid0 =>
    cases hg : mapGet s.app_contexts cid0 with
    | none =>
      have hres : (s.update_context ctx).1 = .error ("context ID not found: " ++ cid0) := by
        simp [SimpleAppContextServer.update_context, hc, hg]
      have hstate : (s.update_context ctx).2 = s := by
        simp [SimpleAppContextServer.update_context, hc, hg]
      refine ⟨?_, ?_, fun _ => hstate⟩
      · refine iff_of_false (by rw [hres]; simp) ?_
        rintro ⟨cid, stored, hcid, hget, -⟩
        cases Option.some.inj hcid
        rw [hg] at hget
        simp at hget
      · intro cid hcid hok
        rw [hres] at hok
        simp at hok
    | some stored =>
      by_cases hid : stored.identical_except_callback_reference ctx = true
      · have hres : (s.update_context ctx).1 = .ok () := by
          simp [SimpleAppContextServer.update_context, hc, hg, hid]
        have hstate : (s.update_context ctx).2.app_contexts
            = setCallback s.app_contexts cid0 ctx.callbackReference := by
          simp [SimpleAppContextServer.update_context, hc, hg, hid]
        refine ⟨iff_of_true hres ⟨cid0, stored, rfl, hg,
            (identical_except_callback_reference_iff stored ctx).mp hid⟩, ?_, ?_⟩
        · intro cid hcid hok
          cases Option.some.inj hcid
          rw [hstate]
          exact ⟨mapGet_setCallback_self _ _ _,
            fun k hk => mapGet_setCallback_ne _ _ _ _ hk⟩
        · intro hne
          exact absurd hres hne
      · have hres : (s.update_context ctx).1
            = .error "AppContext in the request does not match that in the server" := by
          simp [SimpleAppContextServer.update_context, hc, hg, hid]
        have hstate : (s.update_context ctx).2 = s := by
          simp [SimpleAppContextServer.update_context, hc, hg, hid]
        refine ⟨?_, ?_, fun _ => hstate⟩
        · refine iff_of_false (by rw [hres]; simp) ?_
          rintro ⟨cid, stored', hcid, hget, heq⟩
          cases Option.some.inj hcid
          rw [hg] at hget
          cases Option.some.inj hget
          exact hid ((identical_except_callback_reference_iff stored ctx).mpr heq)
        · intro cid hcid hok
          rw [hres] at hok
          simp at hok

/-- A stored context: `reqA` as it would sit in the store under key
"c1". -/
def reqX : AppContext := { reqA with contextId := some "c1" }

/-- An update request that changes only the callbackReference of
`reqX`. -/
def updC2 : AppContext := { reqX with callbackReference := some "new_callback" }

/-- A store holding exactly `reqX` under key "c1". -/
def storeC2 : SimpleAppContextServer :=
  { max_contexts := 10
    reference_uri_default := some "referenceURI"
    reference_uri_by_appdid := []
    app_contexts := [("c1", reqX)] }

/-- C2 witness: updating only the callbackReference succeeds and the
stored context afterwards is exactly the request. -/
theorem updateContext_spec_c2_witness :
    (storeC2.update_context updC2).1 = .ok ()
    ∧ mapGet (storeC2.update_context updC2).2.app_contexts "c1" = some updC2 := by
  have h := updateContext_spec_c2 storeC2 updC2
  have hok : (storeC2.update_context updC2).1 = .ok () :=
    h.1.mpr ⟨"c1", reqX, rfl, rfl, by decide⟩
  have h2 := (h.2.1 "c1" rfl hok).1
  refine ⟨hok, ?_⟩
  rw [h2]
  rfl

/-! ### The filter engine claims -/

theorem all_eq_false_of_mem {α : Type} (l : List α) (p : α → Bool) (x : α)
    (hx : x ∈ l) (h : p x = false) : l.all p = false := by
  cases hb : l.all p with
  | false => rfl
  | true => exact absurd (List.all_eq_true.mp hb x hx) (by simp [h])

/-- Membership in `matching_info`: an entry is kept exactly when it is in
the catalog and satisfies every specified criterion. -/
theorem mem_matching_info (l : ApplicationList) (info : ApplicationListInfo)
    (x : AppList) :
    x ∈ l.matching_info info ↔
      x ∈ l.appList
      ∧ (info.app_names = [] ∨ x.appInfo.appName ∈ info.app_names)
      ∧ (info.app_providers = [] ∨ x.appInfo.appProvider ∈ info.app_providers)
      ∧ (info.app_soft_versions = [] ∨ x.appInfo.appSoftVersion ∈ info.app_soft_versions)
      ∧ (info.serviceCont = none
          ∨ ∃ ac, x.appInfo.appCharcs = some ac ∧ ac.serviceCont = info.serviceCont)
      ∧ (info.vendor_ids = []
          ∨ (x.vendorSpecificExt.getD VendorSpecificExt.empty).vendorId ∈ info.vendor_ids) := by
  unfold ApplicationList.matching_info
  rw [List.mem_filter]
  refine and_congr_right fun _ => ?_
  unfold matchesInfo
  cases hsc : info.serviceCont with
  | none =>
    simp only [Bool.and_eq_true, Bool.or_eq_true, List.isEmpty_iff, List.contains,
      List.elem_iff]
    tauto
  | some v =>
    cases hac : x.appInfo.appCharcs with
    | none =>
      simp [List.isEmpty_iff, List.contains, List.elem_iff]
    | some ac =>
      simp only [Bool.and_eq_true, Bool.or_eq_true, List.isEmpty_iff, List.contains,
        List.elem_iff, beq_iff_eq, Option.some.injEq, exists_eq_left']
      constructor
      · rintro ⟨⟨⟨⟨h1, h2⟩, h3⟩, h4⟩, h5⟩
        exact ⟨h1, h2, h3, Or.inr h4.symm, h5⟩
      · rintro ⟨h1, h2, h3, h4, h5⟩
        rcases h4 with h4 | h4
        · exact absurd h4 (by simp)
        · exact ⟨⟨⟨⟨h1, h2⟩, h3⟩, h4.symm⟩, h5⟩

/-- C4 (amended): an entry is returned iff, for each of appName,
appProvider, appSoftVersion and vendorId, the filter field's accepted set
is empty (wildcard) or the entry's corresponding value is in the
comma-split accepted set, AND the serviceContinuity criterion is
satisfied (serviceCont absent from the filter, or the entry carries
AppCharacteristics with the same serviceContinuity value); all fields
combine by AND, and a query with all fields absent returns the entire
catalog. -/
theorem matching_info_membership_c4 (l : ApplicationList) (info : ApplicationListInfo) :
    (∀ x, x ∈ l.matching_info info ↔
      x ∈ l.appList
      ∧ (info.app_names = [] ∨ x.appInfo.appName ∈ info.app_names)
      ∧ (info.app_providers = [] ∨ x.appInfo.appProvider ∈ info.app_providers)
      ∧ (info.app_soft_versions = [] ∨ x.appInfo.appSoftVersion ∈ info.app_soft_versions)
      ∧ (info.serviceCont = none
          ∨ ∃ ac, x.appInfo.appCharcs = some ac ∧ ac.serviceCont = info.serviceCont)
      ∧ (info.vendor_ids = []
          ∨ (x.vendorSpecificExt.getD VendorSpecificExt.empty).vendorId ∈ info.vendor_ids))
    ∧ (info.appName = none → info.appProvider = none → info.appSoftVersion = none →
        info.serviceCont = none → info.vendorId = none →
        l.matching_info info = l.appList) := by
  refine ⟨fun x => mem_matching_info l info x, ?_⟩
  intro h1 h2 h3 h4 h5
  unfold ApplicationList.matching_info
  refine List.filter_eq_self.mpr fun a _ => ?_
  simp [matchesInfo, ApplicationListInfo.app_names, ApplicationListInfo.app_providers,
    ApplicationListInfo.app_soft_versions, ApplicationListInfo.vendor_ids, to_hash_set,
    h1, h2, h3, h4, h5]

/-- The all-absent filter query. -/
def infoEmptyQ : ApplicationListInfo :=
  { appName := none, appProvider := none, appSoftVersion := none
    serviceCont := none, vendorId := none }

/-- C4 witness: the all-absent query returns the whole one-entry
catalog. -/
theorem matching_info_membership_c4_witness :
    cat1.matching_info infoEmptyQ = cat1.appList :=
  (matching_info_membership_c4 cat1 infoEmptyQ).2 rfl rfl rfl rfl rfl

/-- C4 counterexample to the claim as stated: for the query whose four
string criteria are all absent but whose serviceCont is 0, an entry
without AppCharacteristics satisfies the claimed four-field condition
(all wildcards) yet is not returned, so the claimed "if and only if"
over the four string fields alone is false. -/
theorem matching_info_c4_counterexample :
    infoSC0.appName = none ∧ infoSC0.appProvider = none
    ∧ infoSC0.appSoftVersion = none ∧ infoSC0.vendorId = none
    ∧ cat1.appList ≠ [] ∧ cat1.matching_info infoSC0 = [] := by
  refine ⟨rfl, rfl, rfl, rfl, by decide, by decide⟩

/-- C8: when the filter's serviceCont field is present (with any value),
an entry lacking AppCharacteristics is never in the result, and an entry
in the result always carries AppCharacteristics whose serviceContinuity
equals the filter's value. -/
theorem matching_info_serviceCont_c8 (l : ApplicationList) (info : ApplicationListInfo)
    (v : Nat) (hsc : info.serviceCont = some v) :
    (∀ x ∈ l.appList, x.appInfo.appCharcs = none → x ∉ l.matching_info info)
    ∧ (∀ x ∈ l.matching_info info,
        ∃ ac, x.appInfo.appCharcs = some ac ∧ ac.serviceCont = some v) := by
  constructor
  · intro x _ hac hmem
    have h := (mem_matching_info l info x).mp hmem
    rcases h.2.2.2.2.1 with h' | ⟨ac, hac', -⟩
    · rw [hsc] at h'
      simp at h'
    · rw [hac] at hac'
      simp at hac'
  · intro x hmem
    have h := (mem_matching_info l info x).mp hmem
    rcases h.2.2.2.2.1 with h' | ⟨ac, hac', hv⟩
    · rw [hsc] at h'
      simp at h'
    · exact ⟨ac, hac', by rw [hv, hsc]⟩

/-- C8 witness: with serviceCont 0 requested, the catalog entry without
AppCharacteristics is excluded. -/
theorem matching_info_serviceCont_c8_witness :
    entry1 ∉ cat1.matching_info infoSC0 :=
  (matching_info_serviceCont_c8 cat1 infoSC0 0 rfl).1 entry1 (by simp [cat1]) rfl

/-- C6: a query whose filter criteria are malformed — some comma-split
value longer than 32 characters, or serviceCont present and not 0 or 1 —
fails validation and is rejected by the `app_list` handler as a bad
request before any matching runs, whatever the catalog state is. -/
theorem invalid_query_rejected_c6 (srv : StaticApplicationListServer)
    (info : ApplicationListInfo)
    (hbad : (∃ x ∈ info.app_names, 32 < x.length)
      ∨ (∃ x ∈ info.app_providers, 32 < x.length)
      ∨ (∃ x ∈ info.app_soft_versions, 32 < x.length)
      ∨ (∃ x ∈ info.vendor_ids, 32 < x.length)
      ∨ (∃ v, info.serviceCont = some v ∧ v ≠ 0 ∧ v ≠ 1)) :
    info.validate = .error "invalid query"
    ∧ app_list_handler srv info = .badRequest "invalid query" := by
  have hval : info.validate = .error "invalid query" := by
    unfold ApplicationListInfo.validate
    rcases hbad with ⟨x, hx, hlen⟩ | ⟨x, hx, hlen⟩ | ⟨x, hx, hlen⟩ | ⟨x, hx, hlen⟩
      | ⟨v, hv, h0, h1⟩
    · have h := all_eq_false_of_mem info.app_names (fun x => x.length ≤ 32) x hx
        (by simpa using Nat.not_le.mpr hlen)
      simp [h]
    · have h := all_eq_false_of_mem info.app_providers (fun x => x.length ≤ 32) x hx
        (by simpa using Nat.not_le.mpr hlen)
      simp [h]
    · have h := all_eq_false_of_mem info.app_soft_versions (fun x => x.length ≤ 32) x hx
        (by simpa using Nat.not_le.mpr hlen)
      simp [h]
    · have h := all_eq_false_of_mem info.vendor_ids (fun x => x.length ≤ 32) x hx
        (by simpa using Nat.not_le.mpr hlen)
      simp [h]
    · have h : service_cont_valid info.serviceCont = false := by
        rw [hv]
        match v, h0, h1 with
        | 0, h0, _ => exact absurd rfl h0
        | 1, _, h1 => exact absurd rfl h1
        | n + 2, _, _ => rfl
      simp [h]
  exact ⟨hval, by simp [app_list_handler, hval]⟩

/-- A filter-engine instance with a loaded catalog. -/
def srvOk : StaticApplicationListServer := { app_list := some cat1, last_err := none }

/-- A malformed query: serviceCont is 2. -/
def infoBadSC : ApplicationListInfo :=
  { appName := none, appProvider := none, appSoftVersion := none
    serviceCont := some 2, vendorId := none }

/-- C6 witness: serviceCont 2 is rejected as a bad request even though the
catalog is loaded. -/
theorem invalid_query_rejected_c6_witness :
    app_list_handler srvOk infoBadSC = .badRequest "invalid query" :=
  (invalid_query_rejected_c6 srvOk infoBadSC
    (Or.inr (Or.inr (Or.inr (Or.inr ⟨2, rfl, by decide, by decide⟩))))).2

/-- C7: a filter-engine instance with a recorded catalog load error fails
every query with exactly that error, whatever the criteria are. -/
theorem sticky_load_error_c7 (s : StaticApplicationListServer) (e : String)
    (h : s.last_err = some e) (info : ApplicationListInfo) :
    s.application_list info = .error e := by
  simp [StaticApplicationListServer.application_list, h]

/-- A filter-engine instance whose catalog failed to load. -/
def srvErr : StaticApplicationListServer :=
  { app_list := none, last_err := some "load failed" }

/-- C7 witness: the recorded load error is returned for two different
criteria. -/
theorem sticky_load_error_c7_witness :
    srvErr.application_list infoEmptyQ = .error "load failed"
    ∧ srvErr.application_list infoSC0 = .error "load failed" :=
  ⟨sticky_load_error_c7 srvErr "load failed" rfl infoEmptyQ,
   sticky_load_error_c7 srvErr "load failed" rfl infoSC0⟩

/-! ### The validation-aggregation claim -/

/-- C5 (amended): every aggregating parent — AppContext, AppInfoContext,
AppInfoList, AppList and ApplicationList — collects, semicolon-joined and
untruncated, one reason per failing field-level check of its own and one
reason per failing nested element. (Validation inside a nested
LocationConstraints, by contrast, short-circuits on its first violated
rule: see the counterexample.) -/
theorem validate_aggregation_c5 :
    (∀ a : AppContext,
      a.validate = check (appContextProblems a)
      ∧ (∀ cid, a.contextId = some cid → 32 < cid.length →
          "contextId is too long" ∈ appContextProblems a)
      ∧ (32 < a.associateDevAppId.length →
          "associateDevAppId is too long" ∈ appContextProblems a)
      ∧ (∀ e, a.appInfo.validate = .error e → e ∈ appContextProblems a)
      ∧ (appContextProblems a ≠ [] →
          a.validate = .error (String.intercalate ";" (appContextProblems a))))
    ∧ (∀ b : AppInfoContext,
      b.validate = check (appInfoContextProblems b)
      ∧ (32 < b.appName.length → "appName is too long" ∈ appInfoContextProblems b)
      ∧ (32 < b.appProvider.length → "appProvider is too long" ∈ appInfoContextProblems b)
      ∧ (∀ x, b.appSoftVersion = some x → 32 < x.length →
          "appSoftVersion is too long" ∈ appInfoContextProblems b)
      ∧ (∀ x, b.appDescription = some x → 128 < x.length →
          "appDescription is too long" ∈ appInfoContextProblems b)
      ∧ (∀ i ∈ b.userAppInstanceInfo, ∀ e, i.validate = .error e →
          e ∈ appInfoContextProblems b)
      ∧ (appInfoContextProblems b ≠ [] →
          b.validate = .error (String.intercalate ";" (appInfoContextProblems b))))
    ∧ (∀ c : AppInfoList,
      c.validate = check (appInfoListProblems c)
      ∧ (32 < c.appName.length → "appName is too long" ∈ appInfoListProblems c)
      ∧ (32 < c.appProvider.length → "appProvider is too long" ∈ appInfoListProblems c)
      ∧ (32 < c.appSoftVersion.length →
          "appSoftVersion is too long" ∈ appInfoListProblems c)
      ∧ (128 < c.appDescription.length →
          "appDescription is too long" ∈ appInfoListProblems c)
      ∧ (∀ loc ∈ c.appLocation, ∀ e, LocationConstraints.validate loc = .error e →
          e ∈ appInfoListProblems c)
      ∧ (∀ ch, c.appCharcs = some ch → ∀ e, AppCharcs.validate ch = .error e →
          e ∈ appInfoListProblems c)
      ∧ (appInfoListProblems c ≠ [] →
          c.validate = .error (String.intercalate ";" (appInfoListProblems c))))
    ∧ (∀ d : AppList,
      d.validate = check (appListProblems d)
      ∧ (∀ e, d.appInfo.validate = .error e → e ∈ appListProblems d)
      ∧ (∀ v, d.vendorSpecificExt = some v → ∀ e, v.validate = .error e →
          e ∈ appListProblems d)
      ∧ (appListProblems d ≠ [] →
          d.validate = .error (String.intercalate ";" (appListProblems d))))
    ∧ (∀ l : ApplicationList,
      l.validate = check (l.appList.map (fun x => problemsOf x.validate)).flatten
      ∧ (∀ x ∈ l.appList, ∀ e, x.validate = .error e →
          e ∈ (l.appList.map (fun x => problemsOf x.validate)).flatten)
      ∧ ((l.appList.map (fun x => problemsOf x.validate)).flatten ≠ [] →
          l.validate = .error (String.intercalate ";"
            (l.appList.map (fun x => problemsOf x.validate)).flatten))) := by
  refine ⟨fun a => ⟨rfl, ?_, ?_, ?_, ?_⟩,
    fun b => ⟨rfl, ?_, ?_, ?_, ?_, ?_, ?_⟩,
    fun c => ⟨rfl, ?_, ?_, ?_, ?_, ?_, ?_, ?_⟩,
    fun d => ⟨rfl, ?_, ?_, ?_⟩,
    fun l => ⟨rfl, ?_, ?_⟩⟩
  · intro cid hcid hlen
    simp [appContextProblems, hcid, hlen]
  · intro hlen
    simp [appContextProblems, hlen]
  · intro e he
    simp [appContextProblems, problemsOf, he]
  · intro hne
    unfold AppContext.validate check
    rw [if_neg (by simpa [List.isEmpty_iff] using hne)]
  · intro hlen
    simp [appInfoContextProblems, hlen]
  · intro hlen
    simp [appInfoContextProblems, hlen]
  · intro x hx hlen
    simp [appInfoContextProblems, hx, hlen]
  · intro x hx hlen
    simp [appInfoContextProblems, hx, hlen]
  · intro i hi e he
    have hf : e ∈ (b.userAppInstanceInfo.map
        (fun i => problemsOf i.validate)).flatten :=
      List.mem_flatten.mpr ⟨[e], List.mem_map.mpr ⟨i, hi, by simp [problemsOf, he]⟩, by simp⟩
    simp only [appInfoContextProblems, List.mem_append]
    tauto
  · intro hne
    unfold AppInfoContext.validate check
    rw [if_neg (by simpa [List.isEmpty_iff] using hne)]
  · intro hlen
    simp [appInfoListProblems, hlen]
  · intro hlen
    simp [appInfoListProblems, hlen]
  · intro hlen
    simp [appInfoListProblems, hlen]
  · intro hlen
    simp [appInfoListProblems, hlen]
  · intro loc hloc e he
    have hf : e ∈ (c.appLocation.map
        (fun x => problemsOf x.validate)).flatten :=
      List.mem_flatten.mpr ⟨[e], List.mem_map.mpr ⟨loc, hloc, by simp [problemsOf, he]⟩,
        by simp⟩
    simp only [appInfoListProblems, List.mem_append]
    tauto
  · intro ch hch e he
    simp [appInfoListProblems, hch, problemsOf, he]
  · intro hne
    unfold AppInfoList.validate check
    rw [if_neg (by simpa [List.isEmpty_iff] using hne)]
  · intro e he
    simp [appListProblems, problemsOf, he]
  · intro v hv e he
    simp [appListProblems, hv, problemsOf, he]
  · intro hne
    unfold AppList.validate check
    rw [if_neg (by simpa [List.isEmpty_iff] using hne)]
  · intro x hx e he
    exact List.mem_flatten.mpr ⟨[e], List.mem_map.mpr ⟨x, hx, by simp [problemsOf, he]⟩,
      by simp⟩
  · intro hne
    unfold ApplicationList.validate check
    rw [if_neg (by simpa [List.isEmpty_iff] using hne)]

/-- An AppContext violating two rules at once: its associateDevAppId and
its appInfo.appName are both 33 characters long. -/
def ctxTwoBad : AppContext :=
  { reqA with
    associateDevAppId := String.mk (List.replicate 33 'a')
    appInfo := { reqA.appInfo with appName := String.mk (List.replicate 33 'b') } }

/-- An AppInfoList violating two field-level rules at once: its appName is
33 characters and its appDescription 129 characters long. -/
def ail2Bad : AppInfoList :=
  { appDId := "d"
    appName := String.mk (List.replicate 33 'c')
    appProvider := "p"
    appSoftVersion := "1"
    appDVersion := "v"
    appDescription := String.mk (List.replicate 129 'd')
    appLocation := []
    appCharcs := none }

/-- A catalog in which every entry fails validation. -/
def catBad : ApplicationList :=
  { appList := [{ appInfo := ail2Bad, vendorSpecificExt := none }] }

set_option maxRecDepth 8192 in
/-- C5 witness: both violations of `ctxTwoBad` are collected and its
aggregated error joins them with a semicolon; the same holds for the two
field violations of `ail2Bad`, and the failing entry's reason propagates
into the enclosing catalog's aggregated error. -/
theorem validate_aggregation_c5_witness :
    "associateDevAppId is too long" ∈ appContextProblems ctxTwoBad
    ∧ "appName is too long" ∈ appInfoContextProblems ctxTwoBad.appInfo
    ∧ ctxTwoBad.validate
        = .error "associateDevAppId is too long;appName is too long"
    ∧ ail2Bad.validate = .error "appName is too long;appDescription is too long"
    ∧ catBad.validate = .error "appName is too long;appDescription is too long" := by
  have h := validate_aggregation_c5
  refine ⟨(h.1 ctxTwoBad).2.2.1 (by decide),
    (h.2.1 ctxTwoBad.appInfo).2.1 (by decide), ?_, ?_, ?_⟩
  · have he := (h.1 ctxTwoBad).2.2.2.2 (by decide)
    rw [he]
    rfl
  · have he := (h.2.2.1 ail2Bad).2.2.2.2.2.2.2 (by decide)
    rw [he]
    rfl
  · have he := (h.2.2.2.2 catBad).2.2 (by decide)
    rw [he]
    rfl

/-- C5 counterexample to "validation never short-circuits": this
LocationConstraints violates two rules at once (countryCode absent and no
civic address element, both required when area is absent), yet `validate`
reports a single reason — the empty-countryCode one — so not every
violation is reported. -/
theorem locationConstraints_shortcircuit_c5_counterexample :
    lc0.area = none ∧ lc0.countryCode = none ∧ lc0.civicAddressElement = []
    ∧ lc0.validate = .error "Empty countryCode in LocalConstraints"
    ∧ lc0.validate ≠ .error (String.intercalate ";"
        ["Empty countryCode in LocalConstraints",
         "Empty civicAddressElement in LocalConstraints"]) := by
  refine ⟨rfl, rfl, rfl, rfl, by decide⟩

end EtsiMecQkd
